import Mathlib

/-!
Verification of the ELF64 loader of an AArch64 bootloader.

The development shallowly embeds `src/parsers/elf.rs`. Byte-addressed
memory is a function from addresses to byte values; the loader reads the
ELF header and the program headers from memory, copies loadable segments
and zero-fills BSS tails, mirroring `check_elf_header`, `load_elf` and
`load_kernel` from the source. Diagnostic output (the `pl011::println`
calls) is collected as a list of lines; the `panic!()` call that follows a
failed header validation is modelled by the `LoadResult.panicked`
constructor, which records the memory state at the moment the program
enters the never-returning panic handler.
-/

/-- Byte-addressed memory: the value stored at each address. -/
abbrev Mem := Nat → Nat

/-- ELF magic number bytes: 0x7F E L F. -/
def ELFMAG : List Nat := [0x7f, 0x45, 0x4c, 0x46]

/-- Index of the file class byte in e_ident. -/
def EI_CLASS : Nat := 4

/-- 64-bit object file class. -/
def ELFCLASS64 : Nat := 2

/-- Index of the data encoding byte in e_ident. -/
def EI_DATA : Nat := 5

/-- Little-endian encoding tag. -/
def ELFDATA2LSB : Nat := 1

/-- Index of the OS ABI identification in e_ident. -/
def EI_OSABI : Nat := 7

/-- UNIX System V ABI. -/
def ELFOSABI_SYSV : Nat := 0

/-- Executable file type. -/
def ET_EXEC : Nat := 2

/-- ARM AArch64 architecture. -/
def EM_AARCH64 : Nat := 183

/-- Loadable program segment type. -/
def PT_LOAD : Nat := 1

/-- Little-endian read of `w` bytes starting at `addr`. -/
def readLE (m : Mem) (addr : Nat) : Nat → Nat
  | 0 => 0
  | w + 1 => m addr + 256 * readLE m (addr + 1) w

/-- ELF64 file header, fields as in the `repr(C)` Rust struct `Elf64Ehdr`. -/
structure Elf64Ehdr where
  e_ident : List Nat
  e_type : Nat
  e_machine : Nat
  e_version : Nat
  e_entry : Nat
  e_phoff : Nat
  e_shoff : Nat
  e_flags : Nat
  e_ehsize : Nat
  e_phentsize : Nat
  e_phnum : Nat
  e_shentsize : Nat
  e_shnum : Nat
  e_shstrndx : Nat
deriving DecidableEq

/-- Dereference of `*(elf_base as *const Elf64Ehdr)`: the header fields at
their `repr(C)` offsets, multi-byte fields little-endian (AArch64). -/
def readEhdr (m : Mem) (b : Nat) : Elf64Ehdr where
  e_ident := (List.range 16).map (fun i => m (b + i))
  e_type := readLE m (b + 16) 2
  e_machine := readLE m (b + 18) 2
  e_version := readLE m (b + 20) 4
  e_entry := readLE m (b + 24) 8
  e_phoff := readLE m (b + 32) 8
  e_shoff := readLE m (b + 40) 8
  e_flags := readLE m (b + 48) 4
  e_ehsize := readLE m (b + 52) 2
  e_phentsize := readLE m (b + 54) 2
  e_phnum := readLE m (b + 56) 2
  e_shentsize := readLE m (b + 58) 2
  e_shstrndx := readLE m (b + 62) 2
  e_shnum := readLE m (b + 60) 2

/-- ELF64 program header, fields as in the `repr(C)` Rust struct `Elf64Phdr`. -/
structure Elf64Phdr where
  p_type : Nat
  p_flags : Nat
  p_offset : Nat
  p_vaddr : Nat
  p_paddr : Nat
  p_filesz : Nat
  p_memsz : Nat
  p_align : Nat
deriving DecidableEq

/-- Size in bytes of a program header entry, `mem::size_of::<Elf64Phdr>()`. -/
def phdrSize : Nat := 56

/-- Dereference of a `*const Elf64Phdr` at address `a`. -/
def readPhdr (m : Mem) (a : Nat) : Elf64Phdr where
  p_type := readLE m a 4
  p_flags := readLE m (a + 4) 4
  p_offset := readLE m (a + 8) 8
  p_vaddr := readLE m (a + 16) 8
  p_paddr := readLE m (a + 24) 8
  p_filesz := readLE m (a + 32) 8
  p_memsz := readLE m (a + 40) 8
  p_align := readLE m (a + 48) 8

/-- Embedding of `check_elf_header`. Returns the boolean acceptance
decision together with the lines printed via `pl011::println`, in order. -/
def check_elf_header (h : Elf64Ehdr) : Bool × List String :=
  if h.e_ident.take 4 ≠ ELFMAG then (false, ["Not an ELF file!"])
  else if h.e_ident.getD EI_CLASS 0 ≠ ELFCLASS64 then (false, ["Not an ELF file!"])
  else if h.e_ident.getD EI_DATA 0 ≠ ELFDATA2LSB then (false, ["Invalid endianess!"])
  else if h.e_ident.getD EI_OSABI 0 ≠ ELFOSABI_SYSV then (false, ["Invalid class!"])
  else if h.e_type ≠ ET_EXEC then (false, ["Invalid type!"])
  else if h.e_machine ≠ EM_AARCH64 then (false, ["Invalid machine!"])
  else (true, [])

/-- Embedding of `ptr::copy_nonoverlapping(src, dst, size)` on byte memory:
addresses in the destination range receive the corresponding source byte,
all other addresses keep their value. -/
def copy_nonoverlapping (m : Mem) (src dst size : Nat) : Mem :=
  fun a => if dst ≤ a ∧ a < dst + size then m (src + (a - dst)) else m a

/-- Embedding of `ptr::write_bytes(dst, val, size)` on byte memory. -/
def write_bytes (m : Mem) (dst val size : Nat) : Mem :=
  fun a => if dst ≤ a ∧ a < dst + size then val else m a

/-- One iteration of the program-header loop of `load_elf`: dereference the
program header at address `phaddr` and, when it is a PT_LOAD segment, copy
`p_filesz` bytes from `elf_base + p_offset` to `p_vaddr` and zero the BSS
tail when `p_memsz > p_filesz`. Any other segment type leaves memory
untouched. -/
def loadSegmentAt (elf_base : Nat) (m : Mem) (phaddr : Nat) : Mem :=
  let phdr := readPhdr m phaddr
  if phdr.p_type = PT_LOAD then
    let src := elf_base + phdr.p_offset
    let dst := phdr.p_vaddr
    let size := phdr.p_filesz
    let m1 := copy_nonoverlapping m src dst size
    if phdr.p_memsz > phdr.p_filesz then
      write_bytes m1 (dst + size) 0 (phdr.p_memsz - phdr.p_filesz)
    else m1
  else m

/-- The `for i in 0..n` loop of `load_elf`, run for the first `n`
iterations: entry `i` is read at `phdr_base + i * size_of::<Elf64Phdr>()`
from the memory produced by the earlier iterations. -/
def loadRange (elf_base phdr_base : Nat) (m : Mem) (n : Nat) : Mem :=
  (List.range n).foldl (fun mm i => loadSegmentAt elf_base mm (phdr_base + i * phdrSize)) m

/-- Result of `load_elf`: either the function returns normally with the
final memory and the entry address, or it hits `panic!()`, never returning;
`panicked` records the memory at that point. -/
inductive LoadResult where
  | ok (m : Mem) (entry : Nat)
  | panicked (m : Mem)

/-- Embedding of `load_elf`. Reads the header at `elf_base`, validates it
(panicking after one extra diagnostic line when validation fails), then
runs the program-header loop and returns `e_entry`. The second component
collects every line printed during the call. -/
def load_elf (m : Mem) (elf_base : Nat) : LoadResult × List String :=
  let header := readEhdr m elf_base
  let chk := check_elf_header header
  if chk.fst = false then
    (LoadResult.panicked m, chk.snd ++ ["Not an ELF file!"])
  else
    let phdr_base := elf_base + header.e_phoff
    (LoadResult.ok (loadRange elf_base phdr_base m header.e_phnum) header.e_entry, chk.snd)

/-- Embedding of `load_kernel`, the exported entry point: it just calls
`load_elf`. -/
def load_kernel (m : Mem) (elf_base : Nat) : LoadResult × List String :=
  load_elf m elf_base

/-! ### Derived notions used by the theorems -/

/-- The conjunction of the six header conditions that `check_elf_header`
tests: magic, class, endianness, OS ABI, object type and machine. -/
def validHeader (h : Elf64Ehdr) : Prop :=
  h.e_ident.take 4 = ELFMAG ∧ h.e_ident.getD EI_CLASS 0 = ELFCLASS64 ∧
  h.e_ident.getD EI_DATA 0 = ELFDATA2LSB ∧ h.e_ident.getD EI_OSABI 0 = ELFOSABI_SYSV ∧
  h.e_type = ET_EXEC ∧ h.e_machine = EM_AARCH64

instance (h : Elf64Ehdr) : Decidable (validHeader h) := by
  unfold validHeader; exact inferInstance

/-- Address `a` lies in the half-open interval starting at `lo` of length `len`. -/
def inRange (a lo len : Nat) : Prop := lo ≤ a ∧ a < lo + len

instance (a lo len : Nat) : Decidable (inRange a lo len) := by
  unfold inRange; exact inferInstance

/-- The half-open intervals `[lo1, lo1+len1)` and `[lo2, lo2+len2)` do not meet. -/
def disjointRanges (lo1 len1 lo2 len2 : Nat) : Prop :=
  lo1 + len1 ≤ lo2 ∨ lo2 + len2 ≤ lo1

instance (lo1 len1 lo2 len2 : Nat) : Decidable (disjointRanges lo1 len1 lo2 len2) := by
  unfold disjointRanges; exact inferInstance

/-- Address of the program-header table of the image at `elf_base`. -/
def tableBase (m : Mem) (elf_base : Nat) : Nat := elf_base + (readEhdr m elf_base).e_phoff

/-- Number of program-header entries of the image at `elf_base`. -/
def phnum (m : Mem) (elf_base : Nat) : Nat := (readEhdr m elf_base).e_phnum

/-- Program header number `j`, as recorded in the original image. -/
def phdrAt (m : Mem) (t j : Nat) : Elf64Phdr := readPhdr m (t + j * phdrSize)

/-- An upper bound on the extent of the memory a PT_LOAD segment writes:
every write of `loadSegmentAt` for the descriptor `p` lands in
`[p.p_vaddr, p.p_vaddr + max p.p_filesz p.p_memsz)`. -/
def segSpan (p : Elf64Phdr) : Nat := max p.p_filesz p.p_memsz

/-- Segment `j` of the table at `t` either is not loadable or its write
footprint avoids the interval `[lo, lo+len)`. -/
def segAvoids (m : Mem) (t j lo len : Nat) : Prop :=
  (phdrAt m t j).p_type = PT_LOAD →
    disjointRanges (phdrAt m t j).p_vaddr (segSpan (phdrAt m t j)) lo len

instance (m : Mem) (t j lo len : Nat) : Decidable (segAvoids m t j lo len) := by
  unfold segAvoids; exact inferInstance

/-- The memory produced by a successful `load_elf` call on the image at
`elf_base`. -/
def loadedMem (m : Mem) (elf_base : Nat) : Mem :=
  loadRange elf_base (tableBase m elf_base) m (phnum m elf_base)

/-- The sequence of addresses at which the program-header walker reads
descriptors: `phdr_base + i * 56` for `i = 0, …, n-1`, in increasing order. -/
def tableAddrs (phdr_base n : Nat) : List Nat :=
  (List.range n).map (fun i => phdr_base + i * phdrSize)

/-- The diagnostic line emitted for the first failing header check, per
the message actually printed by `check_elf_header` for that check. -/
def firstFailMsg (h : Elf64Ehdr) : String :=
  if h.e_ident.take 4 ≠ ELFMAG then "Not an ELF file!"
  else if h.e_ident.getD EI_CLASS 0 ≠ ELFCLASS64 then "Not an ELF file!"
  else if h.e_ident.getD EI_DATA 0 ≠ ELFDATA2LSB then "Invalid endianess!"
  else if h.e_ident.getD EI_OSABI 0 ≠ ELFOSABI_SYSV then "Invalid class!"
  else if h.e_type ≠ ET_EXEC then "Invalid type!"
  else "Invalid machine!"

/-! ### Basic lemmas about the header check -/

theorem check_fst_iff (h : Elf64Ehdr) :
    (check_elf_header h).fst = true ↔ validHeader h := by
  unfold check_elf_header validHeader
  split_ifs with h1 h2 h3 h4 h5 h6 <;> simp_all

theorem check_true_snd (h : Elf64Ehdr) (hv : (check_elf_header h).fst = true) :
    (check_elf_header h).snd = [] := by
  unfold check_elf_header at *
  split_ifs at hv ⊢ <;> simp_all

theorem check_false_snd (h : Elf64Ehdr) (hv : (check_elf_header h).fst = false) :
    (check_elf_header h).snd = [firstFailMsg h] := by
  unfold check_elf_header firstFailMsg at *
  split_ifs at hv ⊢ <;> simp_all

/-! ### Basic lemmas about load_elf -/

theorem load_elf_valid (m : Mem) (eb : Nat)
    (hv : (check_elf_header (readEhdr m eb)).fst = true) :
    load_elf m eb =
      (LoadResult.ok (loadedMem m eb) (readEhdr m eb).e_entry,
       (check_elf_header (readEhdr m eb)).snd) := by
  unfold load_elf loadedMem tableBase phnum
  rw [if_neg]
  simp [hv]

theorem load_elf_invalid (m : Mem) (eb : Nat)
    (hv : (check_elf_header (readEhdr m eb)).fst = false) :
    load_elf m eb =
      (LoadResult.panicked m,
       (check_elf_header (readEhdr m eb)).snd ++ ["Not an ELF file!"]) := by
  unfold load_elf
  rw [if_pos hv]

/-! ### Pointwise lemmas about the memory primitives -/

theorem copy_nonoverlapping_in (m : Mem) (src dst size a : Nat)
    (h : dst ≤ a ∧ a < dst + size) :
    copy_nonoverlapping m src dst size a = m (src + (a - dst)) := by
  unfold copy_nonoverlapping
  rw [if_pos h]

theorem copy_nonoverlapping_out (m : Mem) (src dst size a : Nat)
    (h : ¬ (dst ≤ a ∧ a < dst + size)) :
    copy_nonoverlapping m src dst size a = m a := by
  unfold copy_nonoverlapping
  rw [if_neg h]

theorem write_bytes_in (m : Mem) (dst val size a : Nat)
    (h : dst ≤ a ∧ a < dst + size) :
    write_bytes m dst val size a = val := by
  unfold write_bytes
  rw [if_pos h]

theorem write_bytes_out (m : Mem) (dst val size a : Nat)
    (h : ¬ (dst ≤ a ∧ a < dst + size)) :
    write_bytes m dst val size a = m a := by
  unfold write_bytes
  rw [if_neg h]

/-! ### Lemmas about a single program-header iteration -/

theorem loadSegmentAt_skip (eb : Nat) (m : Mem) (a : Nat)
    (h : (readPhdr m a).p_type ≠ PT_LOAD) : loadSegmentAt eb m a = m := by
  unfold loadSegmentAt
  rw [if_neg h]

theorem loadSegmentAt_load (eb : Nat) (m : Mem) (a : Nat)
    (h : (readPhdr m a).p_type = PT_LOAD) :
    loadSegmentAt eb m a =
      (if (readPhdr m a).p_memsz > (readPhdr m a).p_filesz then
        write_bytes
          (copy_nonoverlapping m (eb + (readPhdr m a).p_offset) (readPhdr m a).p_vaddr
            (readPhdr m a).p_filesz)
          ((readPhdr m a).p_vaddr + (readPhdr m a).p_filesz) 0
          ((readPhdr m a).p_memsz - (readPhdr m a).p_filesz)
      else
        copy_nonoverlapping m (eb + (readPhdr m a).p_offset) (readPhdr m a).p_vaddr
          (readPhdr m a).p_filesz) := by
  unfold loadSegmentAt
  rw [if_pos h]

theorem loadSegmentAt_frame (eb : Nat) (m : Mem) (a x : Nat)
    (h : ¬ inRange x (readPhdr m a).p_vaddr (segSpan (readPhdr m a))) :
    loadSegmentAt eb m a x = m x := by
  unfold inRange segSpan at h
  by_cases h1 : (readPhdr m a).p_type = PT_LOAD
  · rw [loadSegmentAt_load eb m a h1]
    by_cases h2 : (readPhdr m a).p_memsz > (readPhdr m a).p_filesz
    · rw [if_pos h2, write_bytes_out _ _ _ _ _ (by omega),
        copy_nonoverlapping_out _ _ _ _ _ (by omega)]
    · rw [if_neg h2, copy_nonoverlapping_out _ _ _ _ _ (by omega)]
  · rw [loadSegmentAt_skip eb m a h1]

theorem loadSegmentAt_copy (eb : Nat) (m : Mem) (a δ : Nat)
    (ht : (readPhdr m a).p_type = PT_LOAD)
    (hδ : δ < (readPhdr m a).p_filesz) :
    loadSegmentAt eb m a ((readPhdr m a).p_vaddr + δ) =
      m (eb + (readPhdr m a).p_offset + δ) := by
  rw [loadSegmentAt_load eb m a ht]
  by_cases h2 : (readPhdr m a).p_memsz > (readPhdr m a).p_filesz
  · rw [if_pos h2]
    rw [write_bytes_out _ _ _ _ _ (by omega)]
    rw [copy_nonoverlapping_in _ _ _ _ _ (by omega)]
    rw [Nat.add_sub_cancel_left]
  · rw [if_neg h2]
    rw [copy_nonoverlapping_in _ _ _ _ _ (by omega)]
    rw [Nat.add_sub_cancel_left]

theorem loadSegmentAt_zero (eb : Nat) (m : Mem) (a δ : Nat)
    (ht : (readPhdr m a).p_type = PT_LOAD)
    (hlo : (readPhdr m a).p_filesz ≤ δ) (hhi : δ < (readPhdr m a).p_memsz) :
    loadSegmentAt eb m a ((readPhdr m a).p_vaddr + δ) = 0 := by
  rw [loadSegmentAt_load eb m a ht]
  rw [if_pos (by omega)]
  rw [write_bytes_in _ _ _ _ _ (by omega)]

/-! ### Reading descriptors is insensitive to writes elsewhere -/

theorem readLE_congr (m1 m2 : Mem) (addr w : Nat)
    (h : ∀ i, i < w → m1 (addr + i) = m2 (addr + i)) :
    readLE m1 addr w = readLE m2 addr w := by
  induction w generalizing addr with
  | zero => rfl
  | succ w ih =>
    unfold readLE
    have h0 : m1 addr = m2 addr := by simpa using h 0 (by omega)
    have hrec : readLE m1 (addr + 1) w = readLE m2 (addr + 1) w := by
      apply ih
      intro i hi
      rw [show addr + 1 + i = addr + (i + 1) from by omega]
      exact h (i + 1) (by omega)
    rw [h0, hrec]

theorem readPhdr_congr (m1 m2 : Mem) (a : Nat)
    (h : ∀ i, i < phdrSize → m1 (a + i) = m2 (a + i)) :
    readPhdr m1 a = readPhdr m2 a := by
  unfold phdrSize at h
  have key : ∀ off w, off + w ≤ 56 →
      readLE m1 (a + off) w = readLE m2 (a + off) w := by
    intro off w hw
    apply readLE_congr
    intro i hi
    rw [show a + off + i = a + (off + i) from by omega]
    exact h (off + i) (by omega)
  have key0 : ∀ w, w ≤ 56 → readLE m1 a w = readLE m2 a w := by
    intro w hw
    simpa using key 0 w (by omega)
  unfold readPhdr
  rw [key0 4 (by omega), key 4 4 (by omega), key 8 8 (by omega), key 16 8 (by omega),
    key 24 8 (by omega), key 32 8 (by omega), key 40 8 (by omega), key 48 8 (by omega)]

/-! ### Lemmas about the program-header loop -/

theorem loadRange_zero (eb t : Nat) (m : Mem) : loadRange eb t m 0 = m := rfl

theorem loadRange_succ (eb t : Nat) (m : Mem) (k : Nat) :
    loadRange eb t m (k + 1) =
      loadSegmentAt eb (loadRange eb t m k) (t + k * phdrSize) := by
  unfold loadRange
  rw [List.range_succ, List.foldl_append]
  rfl

theorem loadRange_table_agree (eb t n : Nat) (m : Mem)
    (Htable : ∀ j, j < n → segAvoids m t j t (phdrSize * n)) :
    ∀ k, k ≤ n → ∀ x, inRange x t (phdrSize * n) → loadRange eb t m k x = m x := by
  intro k
  induction k with
  | zero => intro _ x _; rfl
  | succ k ih =>
    intro hk x hx
    rw [loadRange_succ]
    have hk' : k ≤ n := by omega
    have hph : readPhdr (loadRange eb t m k) (t + k * phdrSize) =
        readPhdr m (t + k * phdrSize) := by
      apply readPhdr_congr
      intro i hi
      apply ih hk'
      unfold inRange
      unfold phdrSize at hi ⊢
      exact ⟨by omega, by omega⟩
    by_cases hload : (readPhdr m (t + k * phdrSize)).p_type = PT_LOAD
    · have hfr : loadSegmentAt eb (loadRange eb t m k) (t + k * phdrSize) x =
          loadRange eb t m k x := by
        apply loadSegmentAt_frame
        rw [hph]
        have hd := Htable k (by omega) hload
        unfold phdrAt at hd
        unfold disjointRanges at hd
        unfold inRange at hx ⊢
        intro hcon
        omega
      rw [hfr]
      exact ih hk' x hx
    · rw [loadSegmentAt_skip _ _ _ (by rw [hph]; exact hload)]
      exact ih hk' x hx

theorem loadRange_phdr_eq (eb t n : Nat) (m : Mem)
    (Htable : ∀ j, j < n → segAvoids m t j t (phdrSize * n))
    (k : Nat) (hk : k ≤ n) (j : Nat) (hj : j < n) :
    readPhdr (loadRange eb t m k) (t + j * phdrSize) = readPhdr m (t + j * phdrSize) := by
  apply readPhdr_congr
  intro i hi
  apply loadRange_table_agree eb t n m Htable k hk
  unfold inRange
  unfold phdrSize at hi ⊢
  exact ⟨by omega, by omega⟩

theorem loadRange_region_agree (eb t n : Nat) (m : Mem)
    (Htable : ∀ j, j < n → segAvoids m t j t (phdrSize * n))
    (lo len k1 : Nat) :
    ∀ k2, k1 ≤ k2 → k2 ≤ n → (∀ j, k1 ≤ j → j < k2 → segAvoids m t j lo len) →
      ∀ x, inRange x lo len → loadRange eb t m k2 x = loadRange eb t m k1 x := by
  intro k2
  induction k2 with
  | zero =>
    intro h1 _ _ x _
    have h0 : k1 = 0 := by omega
    rw [h0]
  | succ k ih =>
    intro h1 h2 hd x hx
    by_cases hk : k1 = k + 1
    · rw [hk]
    · have hk1k : k1 ≤ k := by omega
      rw [loadRange_succ]
      have hph := loadRange_phdr_eq eb t n m Htable k (by omega) k (by omega)
      have htail : loadSegmentAt eb (loadRange eb t m k) (t + k * phdrSize) x =
          loadRange eb t m k x := by
        by_cases hload : (readPhdr m (t + k * phdrSize)).p_type = PT_LOAD
        · apply loadSegmentAt_frame
          rw [hph]
          have hdk := hd k hk1k (by omega) hload
          unfold phdrAt at hdk
          unfold disjointRanges at hdk
          unfold inRange at hx ⊢
          intro hcon
          omega
        · rw [loadSegmentAt_skip _ _ _ (by rw [hph]; exact hload)]
      rw [htail]
      exact ih hk1k (by omega) (fun j hj1 hj2 => hd j hj1 (by omega)) x hx

theorem loadRange_no_load (eb t n : Nat) (m : Mem)
    (h : ∀ j, j < n → (phdrAt m t j).p_type ≠ PT_LOAD) :
    loadRange eb t m n = m := by
  induction n with
  | zero => rfl
  | succ k ih =>
    rw [loadRange_succ, ih (fun j hj => h j (by omega))]
    exact loadSegmentAt_skip _ _ _ (h k (by omega))

/-! ### Concrete images used as witnesses -/

/-- Agreement of two headers on exactly the six fields `check_elf_header`
examines. -/
def sameCheckedFields (h h2 : Elf64Ehdr) : Prop :=
  h.e_ident.take 4 = h2.e_ident.take 4 ∧
  h.e_ident.getD EI_CLASS 0 = h2.e_ident.getD EI_CLASS 0 ∧
  h.e_ident.getD EI_DATA 0 = h2.e_ident.getD EI_DATA 0 ∧
  h.e_ident.getD EI_OSABI 0 = h2.e_ident.getD EI_OSABI 0 ∧
  h.e_type = h2.e_type ∧ h.e_machine = h2.e_machine

instance (h h2 : Elf64Ehdr) : Decidable (sameCheckedFields h h2) := by
  unfold sameCheckedFields; exact inferInstance

/-- A header accepted by every check. -/
def hdrOkA : Elf64Ehdr where
  e_ident := [0x7f, 0x45, 0x4c, 0x46, 2, 1, 0, 0, 0, 0, 0, 0, 0, 0, 0, 0]
  e_type := 2
  e_machine := 183
  e_version := 1
  e_entry := 0x1000
  e_phoff := 64
  e_shoff := 0
  e_flags := 0
  e_ehsize := 64
  e_phentsize := 56
  e_phnum := 0
  e_shentsize := 0
  e_shnum := 0
  e_shstrndx := 0

/-- Same checked fields as `hdrOkA`, every unchecked field different. -/
def hdrOkB : Elf64Ehdr :=
  { hdrOkA with
    e_version := 99,
    e_entry := 5,
    e_phoff := 7,
    e_shoff := 123,
    e_flags := 3,
    e_ehsize := 1,
    e_phentsize := 7,
    e_phnum := 2,
    e_shentsize := 11,
    e_shnum := 13,
    e_shstrndx := 17 }

/-- `hdrOkA` with the first magic byte corrupted. -/
def hdrBadMagic : Elf64Ehdr :=
  { hdrOkA with e_ident := [0, 0x45, 0x4c, 0x46, 2, 1, 0, 0, 0, 0, 0, 0, 0, 0, 0, 0] }

/-- An all-zero image: the magic check fails. -/
def wBad : Mem := fun _ => 0

/-- An image with correct magic but class byte 1 instead of 2. -/
def wBadClass : Mem := fun a =>
  if a = 0 then 0x7f else if a = 1 then 0x45 else if a = 2 then 0x4c
  else if a = 3 then 0x46 else if a = 4 then 1 else 0

/-- A valid image whose single program header has type 0 (not loadable). -/
def w7 : Mem := fun a =>
  if a = 0 then 0x7f else if a = 1 then 0x45 else if a = 2 then 0x4c
  else if a = 3 then 0x46 else if a = 4 then 2 else if a = 5 then 1
  else if a = 16 then 2 else if a = 18 then 183
  else if a = 24 then 0x80
  else if a = 32 then 64
  else if a = 56 then 1
  else 0

/-! ### C2 -/

/-- C2: `check_elf_header` accepts exactly when magic, class, endianness,
OS ABI, object type and machine all match the expected values; the checks
run in that order and the first failure stops validation with its own
diagnostic line; no other header field influences the outcome. -/
theorem claim2_check_elf_header_exact (h h2 : Elf64Ehdr) :
    ((check_elf_header h).fst = true ↔ validHeader h)
    ∧ (h.e_ident.take 4 ≠ ELFMAG → check_elf_header h = (false, ["Not an ELF file!"]))
    ∧ (h.e_ident.take 4 = ELFMAG → h.e_ident.getD EI_CLASS 0 ≠ ELFCLASS64 →
        check_elf_header h = (false, ["Not an ELF file!"]))
    ∧ (h.e_ident.take 4 = ELFMAG → h.e_ident.getD EI_CLASS 0 = ELFCLASS64 →
        h.e_ident.getD EI_DATA 0 ≠ ELFDATA2LSB →
        check_elf_header h = (false, ["Invalid endianess!"]))
    ∧ (h.e_ident.take 4 = ELFMAG → h.e_ident.getD EI_CLASS 0 = ELFCLASS64 →
        h.e_ident.getD EI_DATA 0 = ELFDATA2LSB → h.e_ident.getD EI_OSABI 0 ≠ ELFOSABI_SYSV →
        check_elf_header h = (false, ["Invalid class!"]))
    ∧ (h.e_ident.take 4 = ELFMAG → h.e_ident.getD EI_CLASS 0 = ELFCLASS64 →
        h.e_ident.getD EI_DATA 0 = ELFDATA2LSB → h.e_ident.getD EI_OSABI 0 = ELFOSABI_SYSV →
        h.e_type ≠ ET_EXEC → check_elf_header h = (false, ["Invalid type!"]))
    ∧ (h.e_ident.take 4 = ELFMAG → h.e_ident.getD EI_CLASS 0 = ELFCLASS64 →
        h.e_ident.getD EI_DATA 0 = ELFDATA2LSB → h.e_ident.getD EI_OSABI 0 = ELFOSABI_SYSV →
        h.e_type = ET_EXEC → h.e_machine ≠ EM_AARCH64 →
        check_elf_header h = (false, ["Invalid machine!"]))
    ∧ (sameCheckedFields h h2 → check_elf_header h = check_elf_header h2) := by
  refine ⟨check_fst_iff h, ?_, ?_, ?_, ?_, ?_, ?_, ?_⟩
  · intro h1
    unfold check_elf_header
    rw [if_pos h1]
  · intro h1 h2c
    unfold check_elf_header
    rw [if_neg (not_not_intro h1), if_pos h2c]
  · intro h1 h2c h3
    unfold check_elf_header
    rw [if_neg (not_not_intro h1), if_neg (not_not_intro h2c), if_pos h3]
  · intro h1 h2c h3 h4
    unfold check_elf_header
    rw [if_neg (not_not_intro h1), if_neg (not_not_intro h2c),
      if_neg (not_not_intro h3), if_pos h4]
  · intro h1 h2c h3 h4 h5
    unfold check_elf_header
    rw [if_neg (not_not_intro h1), if_neg (not_not_intro h2c),
      if_neg (not_not_intro h3), if_neg (not_not_intro h4), if_pos h5]
  · intro h1 h2c h3 h4 h5 h6
    unfold check_elf_header
    rw [if_neg (not_not_intro h1), if_neg (not_not_intro h2c),
      if_neg (not_not_intro h3), if_neg (not_not_intro h4),
      if_neg (not_not_intro h5), if_pos h6]
  · intro hs
    obtain ⟨e1, e2, e3, e4, e5, e6⟩ := hs
    unfold check_elf_header
    rw [e1, e2, e3, e4, e5, e6]

/-- Witness for C2 at concrete headers: a fully valid header is accepted,
a corrupted magic is rejected with the magic diagnostic, and changing
every unchecked field leaves the result untouched. -/
theorem claim2_witness :
    (check_elf_header hdrOkA).fst = true ∧
    check_elf_header hdrBadMagic = (false, ["Not an ELF file!"]) ∧
    check_elf_header hdrOkA = check_elf_header hdrOkB :=
  ⟨(claim2_check_elf_header_exact hdrOkA hdrOkA).1.mpr (by decide),
   (claim2_check_elf_header_exact hdrBadMagic hdrOkA).2.1 (by decide),
   (claim2_check_elf_header_exact hdrOkA hdrOkB).2.2.2.2.2.2.2 (by decide)⟩

/-! ### C3 -/

/-- C3: when any of the six checked header fields is corrupted (so the
header is not valid), `load_elf` panics before the segment loop: the
result is `panicked m`, the memory exactly as it was on entry, so no
destination byte has been written. -/
theorem claim3_invalid_header_halts_before_copy (m : Mem) (eb : Nat)
    (hbad : ¬ validHeader (readEhdr m eb)) :
    load_elf m eb = (LoadResult.panicked m,
      (check_elf_header (readEhdr m eb)).snd ++ ["Not an ELF file!"]) := by
  apply load_elf_invalid
  cases hfst : (check_elf_header (readEhdr m eb)).fst
  · rfl
  · exact absurd ((check_fst_iff (readEhdr m eb)).mp hfst) hbad

/-- Witness for C3 at the all-zero image. -/
theorem claim3_witness :
    load_elf wBad 0 = (LoadResult.panicked wBad,
      (check_elf_header (readEhdr wBad 0)).snd ++ ["Not an ELF file!"]) :=
  claim3_invalid_header_halts_before_copy wBad 0 (by decide)

/-! ### C6 -/

/-- Counterexample for C6: on a wrong-class image the diagnostic stream of
the failed load has two lines, not one (the check prints its line and
`load_elf` prints another before panicking); moreover the wrong-magic
image and the wrong-class image produce identical check messages, so the
six failure conditions are not all distinct. -/
theorem claim6_counterexample :
    (load_elf wBadClass 0).snd.length ≠ 1 ∧
    (check_elf_header (readEhdr wBad 0)).snd = (check_elf_header (readEhdr wBadClass 0)).snd ∧
    (readEhdr wBad 0).e_ident.take 4 ≠ ELFMAG ∧
    (readEhdr wBadClass 0).e_ident.take 4 = ELFMAG ∧
    (readEhdr wBadClass 0).e_ident.getD EI_CLASS 0 ≠ ELFCLASS64 := by
  decide

/-- C6 amended: on a header-validation failure the output stream contains
exactly two lines: the message of the first violated check, then the
unconditional `Not an ELF file!` printed by `load_elf` before the panic.
The first line is determined by the first failing check, but the wrong
magic and wrong class conditions share the message `Not an ELF file!`
(and the wrong OS ABI condition prints `Invalid class!`), so the six
conditions do not produce six distinct messages. -/
theorem claim6_amended_two_line_diagnostics (m : Mem) (eb : Nat)
    (hf : (check_elf_header (readEhdr m eb)).fst = false) :
    (load_elf m eb).snd = [firstFailMsg (readEhdr m eb), "Not an ELF file!"] ∧
    (load_elf m eb).snd.length = 2 ∧
    (check_elf_header (readEhdr m eb)).snd = [firstFailMsg (readEhdr m eb)] := by
  have hsnd := check_false_snd _ hf
  rw [load_elf_invalid m eb hf]
  rw [hsnd]
  exact ⟨rfl, rfl, rfl⟩

/-- Witness for the amended C6 at the all-zero image. -/
theorem claim6_amended_witness :
    (load_elf wBad 0).snd = [firstFailMsg (readEhdr wBad 0), "Not an ELF file!"] ∧
    (load_elf wBad 0).snd.length = 2 ∧
    (check_elf_header (readEhdr wBad 0)).snd = [firstFailMsg (readEhdr wBad 0)] :=
  claim6_amended_two_line_diagnostics wBad 0 (by decide)

/-! ### C7 -/

/-- C7: a validated image with no loadable descriptor loads to exactly the
original memory (no byte anywhere is written) and still returns the
entry address of the header. -/
theorem claim7_no_loadable_no_write (m : Mem) (eb : Nat)
    (hv : (check_elf_header (readEhdr m eb)).fst = true)
    (hnone : ∀ j, j < phnum m eb → (phdrAt m (tableBase m eb) j).p_type ≠ PT_LOAD) :
    load_elf m eb = (LoadResult.ok m ((readEhdr m eb).e_entry), []) := by
  rw [load_elf_valid m eb hv, check_true_snd _ hv]
  have hm : loadedMem m eb = m := by
    unfold loadedMem
    exact loadRange_no_load _ _ _ _ hnone
  rw [hm]

/-- Witness for C7: the valid image whose single descriptor has type 0. -/
theorem claim7_witness :
    load_elf w7 0 = (LoadResult.ok w7 ((readEhdr w7 0).e_entry), []) :=
  claim7_no_loadable_no_write w7 0 (by decide) (by decide)

/-! ### C8 -/

/-- C8: for a loadable descriptor with `p_memsz = p_filesz` the iteration
is exactly the `p_filesz`-byte copy: no zero-fill write happens, every
address outside `[p_vaddr, p_vaddr + p_filesz)` keeps its old value, and
the bytes inside come from `elf_base + p_offset`. -/
theorem claim8_equal_sizes_no_zero_fill (eb : Nat) (m : Mem) (a : Nat)
    (ht : (readPhdr m a).p_type = PT_LOAD)
    (heq : (readPhdr m a).p_memsz = (readPhdr m a).p_filesz) :
    loadSegmentAt eb m a =
      copy_nonoverlapping m (eb + (readPhdr m a).p_offset) (readPhdr m a).p_vaddr
        (readPhdr m a).p_filesz
    ∧ (∀ x, ¬ inRange x (readPhdr m a).p_vaddr (readPhdr m a).p_filesz →
        loadSegmentAt eb m a x = m x)
    ∧ (∀ δ, δ < (readPhdr m a).p_filesz →
        loadSegmentAt eb m a ((readPhdr m a).p_vaddr + δ) =
          m (eb + (readPhdr m a).p_offset + δ)) := by
  have hnb : ¬ ((readPhdr m a).p_memsz > (readPhdr m a).p_filesz) := by omega
  have hl := loadSegmentAt_load eb m a ht
  rw [if_neg hnb] at hl
  refine ⟨hl, ?_, ?_⟩
  · intro x hx
    rw [hl]
    apply copy_nonoverlapping_out
    unfold inRange at hx
    omega
  · intro δ hδ
    exact loadSegmentAt_copy eb m a δ ht hδ

/-- A descriptor with equal file and memory sizes, placed at address 0. -/
def w8 : Mem := fun a =>
  if a = 0 then 1 else if a = 8 then 150 else if a = 16 then 100
  else if a = 32 then 3 else if a = 40 then 3 else if a = 150 then 42 else 0

/-- Witness for C8 at a concrete descriptor: the step is the pure copy, an
address outside the destination is untouched, and the first destination
byte equals the first source byte. -/
theorem claim8_witness :
    loadSegmentAt 0 w8 0 =
      copy_nonoverlapping w8 (0 + (readPhdr w8 0).p_offset) (readPhdr w8 0).p_vaddr
        (readPhdr w8 0).p_filesz ∧
    loadSegmentAt 0 w8 0 99 = w8 99 ∧
    loadSegmentAt 0 w8 0 ((readPhdr w8 0).p_vaddr + 0) = w8 (0 + (readPhdr w8 0).p_offset + 0) := by
  have h := claim8_equal_sizes_no_zero_fill 0 w8 0 (by decide) (by decide)
  exact ⟨h.1, h.2.1 99 (by decide), h.2.2 0 (by decide)⟩

/-! ### C9 -/

/-- C9: `load_kernel` either returns the entry address read from a
validated header, or reaches `panic!()` and never returns (modelled by
`LoadResult.panicked`), after emitting diagnostics; there is no third
outcome, hence no error-return path into a continuing caller. -/
theorem claim9_return_or_never_return (m : Mem) (eb : Nat) :
    ((∃ mF e, (load_kernel m eb).fst = LoadResult.ok mF e) ∨
      ((load_kernel m eb).fst = LoadResult.panicked m ∧ (load_kernel m eb).snd ≠ []))
    ∧ ((check_elf_header (readEhdr m eb)).fst = true →
        (load_kernel m eb).fst = LoadResult.ok (loadedMem m eb) ((readEhdr m eb).e_entry))
    ∧ ((check_elf_header (readEhdr m eb)).fst = false →
        load_kernel m eb = (LoadResult.panicked m,
          (check_elf_header (readEhdr m eb)).snd ++ ["Not an ELF file!"])) := by
  unfold load_kernel
  by_cases hf : (check_elf_header (readEhdr m eb)).fst = true
  · refine ⟨Or.inl ?_, ?_, ?_⟩
    · exact ⟨loadedMem m eb, (readEhdr m eb).e_entry, by rw [load_elf_valid m eb hf]⟩
    · intro _
      rw [load_elf_valid m eb hf]
    · intro hcon
      rw [hf] at hcon
      exact absurd hcon (by decide)
  · have hff : (check_elf_header (readEhdr m eb)).fst = false := by
      cases hc : (check_elf_header (readEhdr m eb)).fst
      · rfl
      · exact absurd hc hf
    refine ⟨Or.inr ?_, ?_, ?_⟩
    · rw [load_elf_invalid m eb hff]
      exact ⟨rfl, by simp⟩
    · intro hcon
      exact absurd hcon hf
    · intro _
      exact load_elf_invalid m eb hff

/-- Witness for C9: a valid image returns its entry address, the all-zero
image panics with the diagnostics emitted. -/
theorem claim9_witness :
    (load_kernel w7 0).fst = LoadResult.ok (loadedMem w7 0) ((readEhdr w7 0).e_entry) ∧
    load_kernel wBad 0 = (LoadResult.panicked wBad,
      (check_elf_header (readEhdr wBad 0)).snd ++ ["Not an ELF file!"]) :=
  ⟨(claim9_return_or_never_return w7 0).2.1 (by decide),
   (claim9_return_or_never_return wBad 0).2.2 (by decide)⟩

/-! ### C10 -/

/-- C10: the loader never checks that `p_memsz ≥ p_filesz`. For a loadable
descriptor with `p_memsz < p_filesz` the iteration is exactly the full
`p_filesz`-byte copy, with no zero-fill; the loop then simply continues
with the remaining descriptors, and a validated load emits no diagnostic
whatever the descriptors contain. -/
theorem claim10_memsz_lt_filesz_tolerated (eb : Nat) (m : Mem) (a : Nat) (rest : List Nat)
    (ht : (readPhdr m a).p_type = PT_LOAD)
    (hlt : (readPhdr m a).p_memsz < (readPhdr m a).p_filesz) :
    loadSegmentAt eb m a =
      copy_nonoverlapping m (eb + (readPhdr m a).p_offset) (readPhdr m a).p_vaddr
        (readPhdr m a).p_filesz
    ∧ (∀ δ, δ < (readPhdr m a).p_filesz →
        loadSegmentAt eb m a ((readPhdr m a).p_vaddr + δ) =
          m (eb + (readPhdr m a).p_offset + δ))
    ∧ List.foldl (loadSegmentAt eb) m (a :: rest) =
        List.foldl (loadSegmentAt eb)
          (copy_nonoverlapping m (eb + (readPhdr m a).p_offset) (readPhdr m a).p_vaddr
            (readPhdr m a).p_filesz) rest
    ∧ (∀ m2 eb2, (check_elf_header (readEhdr m2 eb2)).fst = true →
        (load_elf m2 eb2).snd = []) := by
  have hnb : ¬ ((readPhdr m a).p_memsz > (readPhdr m a).p_filesz) := by omega
  have hl := loadSegmentAt_load eb m a ht
  rw [if_neg hnb] at hl
  refine ⟨hl, ?_, ?_, ?_⟩
  · intro δ hδ
    exact loadSegmentAt_copy eb m a δ ht hδ
  · rw [List.foldl_cons, hl]
  · intro m2 eb2 hv2
    rw [load_elf_valid m2 eb2 hv2]
    exact check_true_snd _ hv2

/-- A descriptor with `p_memsz < p_filesz`, placed at address 0. -/
def w10 : Mem := fun a =>
  if a = 0 then 1 else if a = 8 then 100 else if a = 16 then 200
  else if a = 32 then 3 else if a = 40 then 2 else if a = 100 then 9 else 0

/-- Witness for C10 at a concrete malformed descriptor. -/
theorem claim10_witness :
    loadSegmentAt 0 w10 0 =
      copy_nonoverlapping w10 (0 + (readPhdr w10 0).p_offset) (readPhdr w10 0).p_vaddr
        (readPhdr w10 0).p_filesz ∧
    loadSegmentAt 0 w10 0 ((readPhdr w10 0).p_vaddr + 0) = w10 (0 + (readPhdr w10 0).p_offset + 0) ∧
    List.foldl (loadSegmentAt 0) w10 [0] =
      List.foldl (loadSegmentAt 0)
        (copy_nonoverlapping w10 (0 + (readPhdr w10 0).p_offset) (readPhdr w10 0).p_vaddr
          (readPhdr w10 0).p_filesz) [] ∧
    (load_elf w7 0).snd = [] := by
  have h := claim10_memsz_lt_filesz_tolerated 0 w10 0 [] (by decide) (by decide)
  exact ⟨h.1, h.2.1 0 (by decide), h.2.2.1, h.2.2.2 w7 0 (by decide)⟩

/-! ### The central segment-loading correctness lemma -/

/-- For a validated image, segment `i` of the table ends up copied and
zero-filled in the final memory, provided the non-overlap contract of the
image holds: no loadable segment writes over the descriptor table, no
earlier segment writes over the source bytes of segment `i`, and no later
segment writes over the destination of segment `i`. -/
theorem load_segment_correct (m : Mem) (eb : Nat)
    (hv : (check_elf_header (readEhdr m eb)).fst = true)
    (i : Nat) (hi : i < phnum m eb)
    (ht : (phdrAt m (tableBase m eb) i).p_type = PT_LOAD)
    (Htable : ∀ j, j < phnum m eb →
      segAvoids m (tableBase m eb) j (tableBase m eb) (phdrSize * phnum m eb))
    (Hsrc : ∀ j, j < i →
      segAvoids m (tableBase m eb) j (eb + (phdrAt m (tableBase m eb) i).p_offset)
        (phdrAt m (tableBase m eb) i).p_filesz)
    (Hdst : ∀ j, j < phnum m eb → i < j →
      segAvoids m (tableBase m eb) j (phdrAt m (tableBase m eb) i).p_vaddr
        (segSpan (phdrAt m (tableBase m eb) i))) :
    (load_elf m eb).fst = LoadResult.ok (loadedMem m eb) ((readEhdr m eb).e_entry)
    ∧ (∀ δ, δ < (phdrAt m (tableBase m eb) i).p_filesz →
        loadedMem m eb ((phdrAt m (tableBase m eb) i).p_vaddr + δ) =
          m (eb + (phdrAt m (tableBase m eb) i).p_offset + δ))
    ∧ ((phdrAt m (tableBase m eb) i).p_memsz > (phdrAt m (tableBase m eb) i).p_filesz →
        ∀ δ, (phdrAt m (tableBase m eb) i).p_filesz ≤ δ →
          δ < (phdrAt m (tableBase m eb) i).p_memsz →
          loadedMem m eb ((phdrAt m (tableBase m eb) i).p_vaddr + δ) = 0) := by
  set t := tableBase m eb with htdef
  set n := phnum m eb with hndef
  simp only [phdrAt] at ht Hsrc Hdst ⊢
  have hdesc : readPhdr (loadRange eb t m i) (t + i * phdrSize) =
      readPhdr m (t + i * phdrSize) :=
    loadRange_phdr_eq eb t n m Htable i (by omega) i hi
  have hmem : ∀ x, inRange x (readPhdr m (t + i * phdrSize)).p_vaddr
      (segSpan (readPhdr m (t + i * phdrSize))) →
      loadedMem m eb x = loadSegmentAt eb (loadRange eb t m i) (t + i * phdrSize) x := by
    intro x hx
    have h1 : loadedMem m eb x = loadRange eb t m n x := rfl
    rw [h1]
    have h2 := loadRange_region_agree eb t n m Htable
      (readPhdr m (t + i * phdrSize)).p_vaddr (segSpan (readPhdr m (t + i * phdrSize)))
      (i + 1) n (by omega) (le_refl n)
      (fun j hj1 hj2 => Hdst j hj2 (by omega)) x hx
    rw [h2, loadRange_succ]
  refine ⟨by rw [load_elf_valid m eb hv], ?_, ?_⟩
  · intro δ hδ
    have hx : inRange ((readPhdr m (t + i * phdrSize)).p_vaddr + δ)
        (readPhdr m (t + i * phdrSize)).p_vaddr (segSpan (readPhdr m (t + i * phdrSize))) := by
      unfold inRange segSpan
      omega
    rw [hmem _ hx]
    have hc := loadSegmentAt_copy eb (loadRange eb t m i) (t + i * phdrSize) δ
      (by rw [hdesc]; exact ht) (by rw [hdesc]; exact hδ)
    rw [hdesc] at hc
    rw [hc]
    have hsrcpres := loadRange_region_agree eb t n m Htable
      (eb + (readPhdr m (t + i * phdrSize)).p_offset)
      (readPhdr m (t + i * phdrSize)).p_filesz
      0 i (by omega) (by omega) (fun j hj1 hj2 => Hsrc j hj2)
      (eb + (readPhdr m (t + i * phdrSize)).p_offset + δ) (by unfold inRange; omega)
    rw [hsrcpres]
    rw [loadRange_zero]
  · intro hgt δ hδ1 hδ2
    have hx : inRange ((readPhdr m (t + i * phdrSize)).p_vaddr + δ)
        (readPhdr m (t + i * phdrSize)).p_vaddr (segSpan (readPhdr m (t + i * phdrSize))) := by
      unfold inRange segSpan
      omega
    rw [hmem _ hx]
    have hz := loadSegmentAt_zero eb (loadRange eb t m i) (t + i * phdrSize) δ
      (by rw [hdesc]; exact ht) (by rw [hdesc]; exact hδ1) (by rw [hdesc]; exact hδ2)
    rw [hdesc] at hz
    exact hz

/-! ### C1 -/

/-- C1: for every validated image and every PT_LOAD descriptor `i`, the
load copies exactly `p_filesz` bytes from `image_base + p_offset` to
`p_vaddr` (the loaded bytes equal the original image bytes) and, when
`p_memsz > p_filesz`, zero-fills `[p_vaddr + p_filesz, p_vaddr + p_memsz)`;
the hypotheses state the non-overlap contract the spec assumes of the
image (segments do not write over the descriptor table, over the source
region of segment `i`, or over the destination of segment `i`). -/
theorem claim1_segment_copy_and_zero_fill (m : Mem) (eb : Nat)
    (hv : (check_elf_header (readEhdr m eb)).fst = true)
    (i : Nat) (hi : i < phnum m eb)
    (ht : (phdrAt m (tableBase m eb) i).p_type = PT_LOAD)
    (Htable : ∀ j, j < phnum m eb →
      segAvoids m (tableBase m eb) j (tableBase m eb) (phdrSize * phnum m eb))
    (Hsrc : ∀ j, j < i →
      segAvoids m (tableBase m eb) j (eb + (phdrAt m (tableBase m eb) i).p_offset)
        (phdrAt m (tableBase m eb) i).p_filesz)
    (Hdst : ∀ j, j < phnum m eb → i < j →
      segAvoids m (tableBase m eb) j (phdrAt m (tableBase m eb) i).p_vaddr
        (segSpan (phdrAt m (tableBase m eb) i))) :
    (load_elf m eb).fst = LoadResult.ok (loadedMem m eb) ((readEhdr m eb).e_entry)
    ∧ (∀ δ, δ < (phdrAt m (tableBase m eb) i).p_filesz →
        loadedMem m eb ((phdrAt m (tableBase m eb) i).p_vaddr + δ) =
          m (eb + (phdrAt m (tableBase m eb) i).p_offset + δ))
    ∧ ((phdrAt m (tableBase m eb) i).p_memsz > (phdrAt m (tableBase m eb) i).p_filesz →
        ∀ δ, (phdrAt m (tableBase m eb) i).p_filesz ≤ δ →
          δ < (phdrAt m (tableBase m eb) i).p_memsz →
          loadedMem m eb ((phdrAt m (tableBase m eb) i).p_vaddr + δ) = 0) :=
  load_segment_correct m eb hv i hi ht Htable Hsrc Hdst

/-- A valid image with one PT_LOAD segment: 2 file bytes at offset 120,
destination 512, memory size 4. -/
def w1 : Mem := fun a =>
  if a = 0 then 0x7f else if a = 1 then 0x45 else if a = 2 then 0x4c
  else if a = 3 then 0x46 else if a = 4 then 2 else if a = 5 then 1
  else if a = 16 then 2 else if a = 18 then 183
  else if a = 24 then 7
  else if a = 32 then 64
  else if a = 56 then 1
  else if a = 64 then 1
  else if a = 72 then 120
  else if a = 81 then 2
  else if a = 96 then 2
  else if a = 104 then 4
  else if a = 120 then 0xAB else if a = 121 then 0xCD
  else 0

/-- Witness for C1 at the one-segment image `w1`: the load returns the
entry, destination byte 512 holds source byte 120, and destination byte
514 (inside the BSS tail) holds zero. -/
theorem claim1_witness :
    (load_elf w1 0).fst = LoadResult.ok (loadedMem w1 0) ((readEhdr w1 0).e_entry) ∧
    loadedMem w1 0 ((phdrAt w1 (tableBase w1 0) 0).p_vaddr + 0) =
      w1 (0 + (phdrAt w1 (tableBase w1 0) 0).p_offset + 0) ∧
    loadedMem w1 0 ((phdrAt w1 (tableBase w1 0) 0).p_vaddr + 2) = 0 := by
  have h := claim1_segment_copy_and_zero_fill w1 0 (by decide) 0 (by decide) (by decide)
    (by decide) (by decide) (by decide)
  exact ⟨h.1, h.2.1 0 (by decide), h.2.2 (by decide) 2 (by decide) (by decide)⟩

/-! ### C4 -/

theorem loadRange_eq_foldl (eb t : Nat) (m : Mem) (n : Nat) :
    loadRange eb t m n = List.foldl (loadSegmentAt eb) m (tableAddrs t n) := by
  unfold loadRange tableAddrs
  rw [List.foldl_map]

/-- C4: the walker of a validated image folds `loadSegmentAt` over exactly
the addresses `phdr_base + i * 56` for `i = 0, …, e_phnum - 1` in table
order (`tableAddrs`, built from the constant descriptor size 56, not from
`e_phentsize`); a descriptor whose type is not PT_LOAD leaves memory
completely unchanged; and the walk prints nothing. -/
theorem claim4_walker_stride_and_dispatch (m : Mem) (eb : Nat)
    (hv : (check_elf_header (readEhdr m eb)).fst = true) :
    ((load_elf m eb).fst = LoadResult.ok (loadedMem m eb) ((readEhdr m eb).e_entry)
      ∧ loadedMem m eb =
          List.foldl (loadSegmentAt eb) m
            (tableAddrs (eb + (readEhdr m eb).e_phoff) (readEhdr m eb).e_phnum))
    ∧ (∀ mm a, (readPhdr mm a).p_type ≠ PT_LOAD → loadSegmentAt eb mm a = mm)
    ∧ (load_elf m eb).snd = []
    ∧ phdrSize = 56 := by
  refine ⟨⟨by rw [load_elf_valid m eb hv], ?_⟩, ?_, ?_, rfl⟩
  · unfold loadedMem tableBase phnum
    exact loadRange_eq_foldl eb (eb + (readEhdr m eb).e_phoff) m (readEhdr m eb).e_phnum
  · exact fun mm a hna => loadSegmentAt_skip eb mm a hna
  · rw [load_elf_valid m eb hv]
    exact check_true_snd _ hv

/-- Witness for C4 at the valid image `w7` (one non-loadable descriptor):
descriptor address 3 holds a non-loadable type and is skipped. -/
theorem claim4_witness :
    ((load_elf w7 0).fst = LoadResult.ok (loadedMem w7 0) ((readEhdr w7 0).e_entry)
      ∧ loadedMem w7 0 =
          List.foldl (loadSegmentAt 0) w7
            (tableAddrs (0 + (readEhdr w7 0).e_phoff) (readEhdr w7 0).e_phnum))
    ∧ loadSegmentAt 0 w7 3 = w7
    ∧ (load_elf w7 0).snd = []
    ∧ phdrSize = 56 := by
  have h := claim4_walker_stride_and_dispatch w7 0 (by decide)
  exact ⟨h.1, h.2.1 w7 3 (by decide), h.2.2.1, h.2.2.2⟩

/-! ### C5 -/

/-- The end-to-end scenario image of the spec: entry address 0x40080000,
one loadable segment with file offset 0x1000, virtual address 0x40080000,
file size 0x200 and memory size 0x300. Source bytes are a nonzero pattern
and the destination region is pre-filled with 0xCC so that copy and
zero-fill are observable. -/
def e2eMem : Mem := fun a =>
  if a = 0 then 0x7f else if a = 1 then 0x45 else if a = 2 then 0x4c
  else if a = 3 then 0x46 else if a = 4 then 2 else if a = 5 then 1
  else if a = 16 then 2 else if a = 18 then 183
  else if a = 26 then 0x08 else if a = 27 then 0x40
  else if a = 32 then 64
  else if a = 56 then 1
  else if a = 64 then 1
  else if a = 73 then 0x10
  else if a = 82 then 0x08 else if a = 83 then 0x40
  else if a = 97 then 0x02
  else if a = 105 then 0x03
  else if 0x1000 ≤ a ∧ a < 0x1200 then a % 251 + 1
  else if 0x40080000 ≤ a then 0xCC
  else 0

/-- C5: a validated load returns `e_entry` verbatim; and in the end-to-end
scenario (entry 0x40080000, one loadable segment with file offset 0x1000,
virtual address 0x40080000, file size 0x200, memory size 0x300) the 0x200
source bytes are copied to 0x40080000, the 0x100 bytes at 0x40080200 are
zero, and 0x40080000 is returned. -/
theorem claim5_entry_verbatim_and_scenario :
    (∀ m eb, (check_elf_header (readEhdr m eb)).fst = true →
      (load_elf m eb).fst = LoadResult.ok (loadedMem m eb) ((readEhdr m eb).e_entry))
    ∧ (readEhdr e2eMem 0).e_entry = 0x40080000
    ∧ (load_elf e2eMem 0).fst = LoadResult.ok (loadedMem e2eMem 0) 0x40080000
    ∧ (∀ δ, δ < 0x200 → loadedMem e2eMem 0 (0x40080000 + δ) = e2eMem (0x1000 + δ))
    ∧ (∀ δ, δ < 0x100 → loadedMem e2eMem 0 (0x40080200 + δ) = 0) := by
  have hgen : ∀ m eb, (check_elf_header (readEhdr m eb)).fst = true →
      (load_elf m eb).fst = LoadResult.ok (loadedMem m eb) ((readEhdr m eb).e_entry) := by
    intro m eb hv
    rw [load_elf_valid m eb hv]
  have hent : (readEhdr e2eMem 0).e_entry = 0x40080000 := by decide
  have h := load_segment_correct e2eMem 0 (by decide) 0 (by decide) (by decide)
    (by decide) (by decide) (by decide)
  have hva : (phdrAt e2eMem (tableBase e2eMem 0) 0).p_vaddr = 0x40080000 := by decide
  have hof : (phdrAt e2eMem (tableBase e2eMem 0) 0).p_offset = 0x1000 := by decide
  have hfs : (phdrAt e2eMem (tableBase e2eMem 0) 0).p_filesz = 0x200 := by decide
  have hms : (phdrAt e2eMem (tableBase e2eMem 0) 0).p_memsz = 0x300 := by decide
  rw [hva, hof, hfs, hms] at h
  refine ⟨hgen, hent, ?_, ?_, ?_⟩
  · have h1 := h.1
    rw [hent] at h1
    exact h1
  · intro δ hδ
    have hcp := h.2.1 δ hδ
    rw [show (0 : Nat) + 0x1000 + δ = 0x1000 + δ from by omega] at hcp
    exact hcp
  · intro δ hδ
    have hz := h.2.2 (by omega) (0x200 + δ) (by omega) (by omega)
    rw [show (0x40080000 : Nat) + (0x200 + δ) = 0x40080200 + δ from by omega] at hz
    exact hz

/-- Witness for C5: the general part applied to the valid image `w7`, and
the scenario facts sampled at offset 0. -/
theorem claim5_witness :
    (load_elf w7 0).fst = LoadResult.ok (loadedMem w7 0) ((readEhdr w7 0).e_entry) ∧
    loadedMem e2eMem 0 (0x40080000 + 0) = e2eMem (0x1000 + 0) ∧
    loadedMem e2eMem 0 (0x40080200 + 0) = 0 := by
  have h := claim5_entry_verbatim_and_scenario
  exact ⟨h.1 w7 0 (by decide), h.2.2.2.1 0 (by decide), h.2.2.2.2 0 (by decide)⟩
